import Mathlib

/-!
Shallow embedding of the core trading engine of the Bybit spot DCA bot
(packages internal/service, internal/bybit, internal/handler, internal/domain).

Modeling conventions:
- Go numeric strings (order quantities, prices, volumes) are modeled by the
  rational value they parse to, with `none` standing for a string that
  strconv.ParseFloat rejects (this also covers the empty string).
- Go float64 arithmetic is modeled by exact rational arithmetic; the
  specification's arithmetic contract states that the formula and the
  8-fractional-digit output format are the contract, not IEEE-754 artifacts.
- fmt.Sprintf with the 8-digit float verb is modeled by `round8`.
- Wall-clock times are naturals threaded explicitly as `now` arguments.
- uuid.UUID is modeled by a natural number supplied by the caller.
- The exchange side of each OrderService method is an explicit environment
  (`OrderEnv`) mapping the request to the outcome the exchange produced.
-/

namespace CryptorgBot

/-- A Go string holding a number, modeled by its ParseFloat result
(`none` when the string does not parse, including the empty string). -/
abbrev NumStr := Option ℚ

/-- Rounding to 8 fractional digits: the contract of the Sprintf 8-digit
float format used throughout the source. -/
def round8 (q : ℚ) : ℚ := (round (q * 100000000) : ℚ) / 100000000

/-- Formatting a float to 8 fractional digits yields a string that parses
back to the rounded value. -/
def fmt8 (q : ℚ) : NumStr := some (round8 q)

/-- Go `v, _ := strconv.ParseFloat(s, 64)` with the error ignored: a failed
parse leaves the zero value. -/
def parseOr0 (s : NumStr) : ℚ := s.getD 0

/- Domain constants (internal/domain). -/

def OrderSideBuy : String := "BUY"

def OrderSideSell : String := "SELL"

def OrderTypeMarket : String := "MARKET"

def OrderTypeLimit : String := "LIMIT"

def OrderStatusNew : String := "NEW"

def OrderStatusFilled : String := "FILLED"

def TradeStatusActive : String := "ACTIVE"

def TradeStatusCompleted : String := "COMPLETED"

def TradeStatusCancelled : String := "CANCELLED"

def TradeStatusFailed : String := "FAILED"

def DefaultMartingale : ℚ := 1

def DefaultTimeInForce : String := "GTC"

def MaxSafetyOrders : Int := 20

/-- domain.Order: an order placed on the exchange. -/
structure Order where
  id : Nat
  bybitID : String
  symbol : String
  side : String
  type : String
  quantity : NumStr
  price : NumStr
  status : String
  executedQty : NumStr
  createdAt : Nat
  updatedAt : Nat
deriving DecidableEq

/-- domain.CreateOrderRequest. -/
structure CreateOrderRequest where
  symbol : String
  side : String
  type : String
  quantity : NumStr
  price : NumStr
deriving DecidableEq

/-- domain.TradeConfig: the immutable strategy parameters. -/
structure TradeConfig where
  symbol : String
  entryVolume : NumStr
  dcaStepPercent : ℚ
  dcaVolume : NumStr
  dcaCount : Int
  takeProfitPercent : ℚ
  martingale : ℚ
  dynamicStep : Bool
deriving DecidableEq

/-- domain.Trade: the aggregate root of one DCA strategy instance. -/
structure Trade where
  id : Nat
  symbol : String
  config : TradeConfig
  entryOrder : Option Order
  dcaOrders : List Order
  takeProfitOrder : Option Order
  status : String
  totalInvested : NumStr
  averagePrice : NumStr
  currentPrice : NumStr
  createdAt : Nat
  updatedAt : Nat
deriving DecidableEq

instance {α β : Type} [DecidableEq α] [DecidableEq β] : DecidableEq (Except α β) :=
  fun a b =>
    match a, b with
    | .error x, .error y =>
      decidable_of_iff (x = y) ⟨fun h => by rw [h], fun h => by injection h⟩
    | .ok x, .ok y =>
      decidable_of_iff (x = y) ⟨fun h => by rw [h], fun h => by injection h⟩
    | .error _, .ok _ => isFalse (fun h => Except.noConfusion h)
    | .ok _, .error _ => isFalse (fun h => Except.noConfusion h)

/- Order arithmetic (internal/service/order_manager.go, OrderService). -/

/-- OrderService.ComputeTakeProfitPrice: TP price from an entry price and a
profit percentage. -/
def ComputeTakeProfitPrice (entryPrice : NumStr) (profitPercent : ℚ)
    (side : String) : Except String NumStr :=
  match entryPrice with
  | none => .error "invalid entry price"
  | some price =>
    if profitPercent ≤ 0 then .error "profit percent must be positive"
    else
      let tpPrice : ℚ :=
        if side = OrderSideBuy then price * (1 + profitPercent / 100)
        else price * (1 - profitPercent / 100)
      .ok (fmt8 tpPrice)

/-- OrderService.ComputeDCAPrice: next DCA price from a current price and a
step percentage. -/
def ComputeDCAPrice (currentPrice : NumStr) (stepPercent : ℚ)
    (side : String) : Except String NumStr :=
  match currentPrice with
  | none => .error "invalid current price"
  | some price =>
    if stepPercent ≤ 0 then .error "step percent must be positive"
    else
      let dcaPrice : ℚ :=
        if side = OrderSideBuy then price * (1 - stepPercent / 100)
        else price * (1 + stepPercent / 100)
      .ok (fmt8 dcaPrice)

/-- OrderService.calculateQuantityFromUSDT: convert a USDT notional into a
base-asset quantity at the given price. -/
def calculateQuantityFromUSDT (usdtAmount price : NumStr) : Except String NumStr :=
  match usdtAmount with
  | none => .error "invalid USDT amount"
  | some usdt =>
    match price with
    | none => .error "invalid price"
    | some priceQ =>
      if priceQ ≤ 0 then .error "price must be positive"
      else .ok (fmt8 (usdt / priceQ))

/-- The exchange-facing outcome of each OrderService method, supplied as an
explicit environment: market placement, limit placement, cancellation and
status query, each as seen from the trade orchestrator. -/
structure OrderEnv where
  market : CreateOrderRequest → Except String Order
  limit : CreateOrderRequest → Except String Order
  terminate : String → String → Except String Unit
  fetch : String → String → Except String Order

/- Trade orchestrator (internal/service/order_manager.go, TradeService).
The two shared maps are modeled as association lists; the aggregate lock is
irrelevant to the sequential semantics modeled here. -/

/-- The TradeService shared state: trades by id and the reverse order index
from exchange order id to trade id. -/
structure TradeServiceState where
  trades : List (Nat × Trade)
  orderIndex : List (String × Nat)
deriving DecidableEq

def emptyState : TradeServiceState := ⟨[], []⟩

def lookupTrade (m : List (Nat × Trade)) (k : Nat) : Option Trade :=
  (m.find? (fun p => p.1 == k)).map (fun p => p.2)

def insertTrade (m : List (Nat × Trade)) (k : Nat) (t : Trade) : List (Nat × Trade) :=
  (k, t) :: m.eraseP (fun p => p.1 == k)

def indexLookup (m : List (String × Nat)) (k : String) : Option Nat :=
  (m.find? (fun p => p.1 == k)).map (fun p => p.2)

def indexInsert (m : List (String × Nat)) (k : String) (tid : Nat) : List (String × Nat) :=
  (k, tid) :: m.eraseP (fun p => p.1 == k)

def indexErase (m : List (String × Nat)) (k : String) : List (String × Nat) :=
  m.filter (fun p => p.1 != k)

/-- TradeService.indexOrders: map the exchange id of the entry order, the
take-profit order and every DCA order to the trade id. -/
def indexOrders (idx : List (String × Nat)) (trade : Trade) : List (String × Nat) :=
  let idx1 := match trade.entryOrder with
    | some o => indexInsert idx o.bybitID trade.id
    | none => idx
  let idx2 := match trade.takeProfitOrder with
    | some o => indexInsert idx1 o.bybitID trade.id
    | none => idx1
  trade.dcaOrders.foldl (fun m o => indexInsert m o.bybitID trade.id) idx2

/-- TradeService.unindexOrders: remove every order of the trade from the
reverse index. -/
def unindexOrders (idx : List (String × Nat)) (trade : Trade) : List (String × Nat) :=
  let idx1 := match trade.entryOrder with
    | some o => indexErase idx o.bybitID
    | none => idx
  let idx2 := match trade.takeProfitOrder with
    | some o => indexErase idx1 o.bybitID
    | none => idx1
  trade.dcaOrders.foldl (fun m o => indexErase m o.bybitID) idx2

/-- One pass of the total-volume loop in setupTakeProfitOrder: both strings
are re-parsed with errors ignored, the scaled DCA volume is added, and the
sum is re-formatted to 8 digits. -/
def tpVolStep (cfg : TradeConfig) (totalVolume : NumStr) : NumStr :=
  fmt8 (parseOr0 totalVolume + parseOr0 cfg.dcaVolume * cfg.martingale)

/-- The total-volume loop in setupTakeProfitOrder, iterated dcaCount times. -/
def tpVolLoop (cfg : TradeConfig) : Nat → NumStr → NumStr
  | 0, tv => tv
  | Nat.succ n, tv => tpVolLoop cfg n (tpVolStep cfg tv)

/-- The quantity of the initial take-profit request: the projected total
volume, accumulated once per DCA rung when martingale is positive. -/
def tpTotalVolume (cfg : TradeConfig) : NumStr :=
  if 0 < cfg.martingale then tpVolLoop cfg cfg.dcaCount.toNat cfg.entryVolume
  else cfg.entryVolume

/-- The limit-SELL request built by TradeService.setupTakeProfitOrder from
the parsed entry price. -/
def setupTPRequest (trade : Trade) (entryPrice : ℚ) : CreateOrderRequest :=
  { symbol := trade.config.symbol, side := OrderSideSell, type := OrderTypeLimit,
    quantity := tpTotalVolume trade.config,
    price := fmt8 (entryPrice * (1 + trade.config.takeProfitPercent / 100)) }

/-- TradeService.setupTakeProfitOrder: place the initial TP limit SELL; the
trade's TP field is set only when placement succeeds. -/
def setupTakeProfitOrder (env : OrderEnv) (trade : Trade) : Except String Trade :=
  match trade.entryOrder with
  | none => .error "nil entry order"
  | some entry =>
    match entry.price with
    | none => .error "invalid entry price"
    | some entryPrice =>
      match env.limit (setupTPRequest trade entryPrice) with
      | .error _ => .error "failed to create take profit order"
      | .ok tpOrder => .ok { trade with takeProfitOrder := some tpOrder }

/-- The body of the DCA-grid loop in TradeService.setupDCAOrders: `i` is the
absolute 0-based loop index, the second argument the remaining iteration
count. The running price is kept unrounded; each request's price string is
its 8-digit formatting. Returns the requests issued and the orders placed
(a rejected rung is skipped). -/
def dcaLoop (env : OrderEnv) (cfg : TradeConfig) :
    Nat → Nat → ℚ → NumStr → List CreateOrderRequest × List Order
  | _, 0, _, _ => ([], [])
  | i, Nat.succ n, currentPrice, currentVolume =>
    let newPrice : ℚ :=
      if cfg.dynamicStep then
        currentPrice * (1 - cfg.dcaStepPercent * ((i : ℚ) + 1) / 100)
      else
        currentPrice * (1 - cfg.dcaStepPercent / 100)
    let newVolume : NumStr :=
      if 0 < cfg.martingale then fmt8 (parseOr0 currentVolume * cfg.martingale)
      else currentVolume
    let req : CreateOrderRequest :=
      { symbol := cfg.symbol, side := OrderSideBuy, type := OrderTypeLimit,
        quantity := newVolume, price := fmt8 newPrice }
    let rest := dcaLoop env cfg (i + 1) n newPrice newVolume
    let placed : List Order :=
      match env.limit req with
      | .error _ => rest.2
      | .ok dcaOrder => dcaOrder :: rest.2
    (req :: rest.1, placed)

/-- TradeService.setupDCAOrders: place the DCA grid below the entry price. -/
def setupDCAOrders (env : OrderEnv) (trade : Trade) : Except String Trade :=
  match trade.entryOrder with
  | none => .error "nil entry order"
  | some entry =>
    match entry.price with
    | none => .error "invalid entry price"
    | some entryPrice =>
      .ok { trade with dcaOrders := trade.dcaOrders ++
        (dcaLoop env trade.config 0 trade.config.dcaCount.toNat entryPrice
          trade.config.dcaVolume).2 }

/-- TradeService.InitializeTrade: place the entry market BUY (fatal on
failure), build the ACTIVE trade, best-effort TP and DCA setup (errors
swallowed), then register and index the trade. -/
def InitializeTrade (env : OrderEnv) (tradeID : Nat) (now : Nat)
    (st : TradeServiceState) (config : TradeConfig) :
    TradeServiceState × Except String Trade :=
  let entryOrderReq : CreateOrderRequest :=
    { symbol := config.symbol, side := OrderSideBuy, type := OrderTypeMarket,
      quantity := config.entryVolume, price := none }
  match env.market entryOrderReq with
  | .error _ => (st, .error "failed to execute entry order")
  | .ok entryOrder =>
    let trade : Trade :=
      { id := tradeID, symbol := config.symbol, config := config,
        entryOrder := some entryOrder, dcaOrders := [],
        takeProfitOrder := none, status := TradeStatusActive,
        totalInvested := config.entryVolume, averagePrice := entryOrder.price,
        currentPrice := entryOrder.price, createdAt := now, updatedAt := now }
    let trade1 := match setupTakeProfitOrder env trade with
      | .ok t => t
      | .error _ => trade
    let trade2 := match setupDCAOrders env trade1 with
      | .ok t => t
      | .error _ => trade1
    ({ trades := insertTrade st.trades trade2.id trade2,
       orderIndex := indexOrders st.orderIndex trade2 }, .ok trade2)

/-- The volume a DCA order contributes in calculateNewAveragePrice: zero
unless its status is FILLED and both executed quantity and price parse. -/
def dcaContribVol (o : Order) : ℚ :=
  if o.status = OrderStatusFilled then
    match o.executedQty, o.price with
    | some v, some _ => v
    | _, _ => 0
  else 0

/-- The cost a DCA order contributes in calculateNewAveragePrice. -/
def dcaContribCost (o : Order) : ℚ :=
  if o.status = OrderStatusFilled then
    match o.executedQty, o.price with
    | some v, some p => v * p
    | _, _ => 0
  else 0

/-- TradeService.calculateNewAveragePrice: weighted average over the entry
order (quantity, not executed quantity) and every FILLED DCA order whose
fields parse; errors when the entry fields do not parse or the accumulated
volume is zero. -/
def calculateNewAveragePrice (trade : Trade) : Except String (ℚ × NumStr) :=
  match trade.entryOrder with
  | none => .error "nil entry order"
  | some entry =>
    match entry.quantity with
    | none => .error "invalid entry volume"
    | some entryVolume =>
      match entry.price with
      | none => .error "invalid entry price"
      | some entryPrice =>
        let acc := trade.dcaOrders.foldl
          (fun (a : ℚ × ℚ) o => (a.1 + dcaContribVol o, a.2 + dcaContribCost o))
          (entryVolume, entryVolume * entryPrice)
        if acc.1 = 0 then .error "total volume is zero"
        else .ok (acc.2 / acc.1, fmt8 acc.1)

/-- The replacement limit-SELL request built by updateTakeProfitOrder. -/
def updateTPRequest (trade : Trade) (newAveragePrice : ℚ)
    (totalVolume : NumStr) : CreateOrderRequest :=
  { symbol := trade.config.symbol, side := OrderSideSell, type := OrderTypeLimit,
    quantity := totalVolume,
    price := fmt8 (newAveragePrice * (1 + trade.config.takeProfitPercent / 100)) }

/-- TradeService.updateTakeProfitOrder: best-effort cancel of the current TP
(outcome dropped), recompute the average, place the replacement; the TP
field and average price are updated only when placement succeeds. -/
def updateTakeProfitOrder (env : OrderEnv) (trade : Trade) : Except String Trade :=
  let _cancelOutcome : Except String Unit :=
    match trade.takeProfitOrder with
    | some tp => env.terminate trade.symbol tp.bybitID
    | none => .ok ()
  match calculateNewAveragePrice trade with
  | .error _ => .error "failed to calculate new average price"
  | .ok (newAveragePrice, totalVolume) =>
    match env.limit (updateTPRequest trade newAveragePrice totalVolume) with
    | .error _ => .error "failed to create new take profit order"
    | .ok tpOrder =>
      .ok { trade with
              takeProfitOrder := some tpOrder
              averagePrice := fmt8 newAveragePrice }

/-- TradeService.handleDCAExecution: re-query the filled DCA order,
overwrite the in-memory entry, re-price the TP (errors swallowed), and bump
the update time. -/
def handleDCAExecution (env : OrderEnv) (now : Nat) (trade : Trade)
    (dcaOrderIndex : Nat) : Except String Trade :=
  match trade.dcaOrders[dcaOrderIndex]? with
  | none => .error "invalid DCA order index"
  | some dcaOrder =>
    match env.fetch dcaOrder.symbol dcaOrder.bybitID with
    | .error _ => .error "failed to get updated DCA order status"
    | .ok updatedOrder =>
      let trade1 := { trade with
        dcaOrders := trade.dcaOrders.set dcaOrderIndex updatedOrder }
      let trade2 := match updateTakeProfitOrder env trade1 with
        | .ok t => t
        | .error _ => trade1
      .ok { trade2 with updatedAt := now }

/-- TradeService.finalizeTrade: set the terminal status, bump the update
time, un-index every order, then best-effort cancel of each DCA order still
NEW (outcomes dropped). -/
def finalizeTrade (env : OrderEnv) (now : Nat) (st : TradeServiceState)
    (tradeID : Nat) (status : String) : TradeServiceState × Except String Unit :=
  match lookupTrade st.trades tradeID with
  | none => (st, .error "trade not found")
  | some trade =>
    let trade1 := { trade with status := status, updatedAt := now }
    let _cancelOutcomes :=
      (trade1.dcaOrders.filter (fun o => o.status == OrderStatusNew)).map
        (fun o => env.terminate o.symbol o.bybitID)
    ({ trades := insertTrade st.trades tradeID trade1,
       orderIndex := unindexOrders st.orderIndex trade1 }, .ok ())

/-- TradeService.ProcessOrderExecution: dispatch a fill on the trade's TP
(finalize as COMPLETED) or one of its DCA orders (re-average and re-price);
unknown order ids are errors. -/
def ProcessOrderExecution (env : OrderEnv) (now : Nat) (st : TradeServiceState)
    (tradeID : Nat) (orderID : String) : TradeServiceState × Except String Unit :=
  match lookupTrade st.trades tradeID with
  | none => (st, .error "trade not found")
  | some trade =>
    if trade.takeProfitOrder.map (fun o => o.bybitID) = some orderID then
      finalizeTrade env now st tradeID TradeStatusCompleted
    else
      match trade.dcaOrders.findIdx? (fun o => o.bybitID == orderID) with
      | some i =>
        match handleDCAExecution env now trade i with
        | .error e => (st, .error e)
        | .ok trade2 =>
          ({ st with trades := insertTrade st.trades tradeID trade2 }, .ok ())
      | none => (st, .error "order not found in trade")

/-- TradeService.CloseTrade: finalize an existing trade as CANCELLED; the
reason is only echoed to the caller. -/
def CloseTrade (env : OrderEnv) (now : Nat) (st : TradeServiceState)
    (tradeID : Nat) (reason : String) : TradeServiceState × Except String Unit :=
  match lookupTrade st.trades tradeID with
  | none => (st, .error "trade not found")
  | some _ =>
    let _ := reason
    finalizeTrade env now st tradeID TradeStatusCancelled

/-- TradeService.FindTradeByOrderID: reverse index then registry. -/
def FindTradeByOrderID (st : TradeServiceState) (orderID : String) :
    Except String Trade :=
  match indexLookup st.orderIndex orderID with
  | none => .error "trade not found for order ID"
  | some tradeID =>
    match lookupTrade st.trades tradeID with
    | none => .error "trade not found"
    | some trade => .ok trade

/-- The validation prefix of TradeHandler.InitializeTrade: required strings
(the empty string does not parse, hence `none`), positivity of dcaCount,
step and take-profit percent, and the silent martingale default. -/
def initializeTradeValidated (config : TradeConfig) : Except String TradeConfig :=
  if config.symbol = "" ∨ config.entryVolume = none ∨ config.dcaVolume = none then
    .error "Symbol, entry volume and DCA volume are required"
  else if config.dcaCount ≤ 0 ∨ config.dcaStepPercent ≤ 0 ∨ config.takeProfitPercent ≤ 0 then
    .error "DCA count, step percent and take profit percent must be positive"
  else if config.martingale ≤ 0 then
    .ok { config with martingale := DefaultMartingale }
  else .ok config

/- Exchange client (internal/bybit/exchange_client.go).  Only the request
construction is modeled: the HTTP transport and response decoding are
external.  The HMAC-SHA256 hex digest is modeled as an uninterpreted,
collision-free pair of its key and message, since the claims are about
which string is signed, not about SHA-256 internals. -/

/-- bybit.Client credentials and network switch. -/
structure Client where
  apiKey : String
  secretKey : String
  testnet : Bool
deriving DecidableEq

def getBaseURL (c : Client) : String :=
  if c.testnet then "https://api-testnet.bybit.com" else "https://api.bybit.com"

/-- The HMAC-SHA256 hex digest, modeled as the pair of its inputs. -/
structure Signature where
  secret : String
  message : String
deriving DecidableEq

/-- Client.createSignature: HMAC-SHA256 keyed by the API secret over the
given string. -/
def createSignature (c : Client) (queryString : String) : Signature :=
  ⟨c.secretKey, queryString⟩

def insertByKey (p : String × String) :
    List (String × String) → List (String × String)
  | [] => [p]
  | q :: rest => if p.1 ≤ q.1 then p :: q :: rest else q :: insertByKey p rest

def sortByKey (l : List (String × String)) : List (String × String) :=
  l.foldr insertByKey []

/-- url.Values.Encode: keys sorted, joined as key=value pairs with an
ampersand. Percent-escaping is omitted; no value used here needs it. -/
def urlValuesEncode (l : List (String × String)) : String :=
  String.intercalate "&" ((sortByKey l).map (fun p => p.1 ++ "=" ++ p.2))

/-- A request payload as the exchange client sees it: its non-empty fields
as produced by structToURLValues, and its raw JSON marshaling. -/
structure ReqPayload where
  fields : List (String × String)
  json : String
deriving DecidableEq

/-- The outgoing HTTP request as assembled by the client: headers are
explicit fields; the signature query parameter appended by FetchOrderInfo
is modeled separately from the URL string. -/
structure BuiltRequest where
  method : String
  url : String
  urlSignatureParam : Option Signature
  headerApiKey : String
  headerSign : Signature
  headerTimestamp : String
  headerRecvWindow : Option String
  headerContentType : Option String
  body : Option String
deriving DecidableEq

/-- Client.makeAuthenticatedRequest: the payload is rendered as a canonical
query string for GET and DELETE and as the raw JSON body otherwise, and the
signature covers timestamp, API key and that rendering. -/
def makeAuthenticatedRequest (c : Client) (now : Nat) (method endpoint : String)
    (payload : ReqPayload) : BuiltRequest :=
  let queryString : String :=
    if method = "GET" ∨ method = "DELETE" then urlValuesEncode payload.fields
    else payload.json
  let signature := createSignature c (toString now ++ c.apiKey ++ queryString)
  { method := method
    url :=
      if method = "GET" ∨ method = "DELETE" then
        getBaseURL c ++ endpoint ++ "?" ++ queryString
      else getBaseURL c ++ endpoint
    urlSignatureParam := none
    headerApiKey := c.apiKey
    headerSign := signature
    headerTimestamp := toString now
    headerRecvWindow := some "5000"
    headerContentType := if method = "POST" then some "application/json" else none
    body :=
      if method = "GET" ∨ method = "DELETE" then none
      else some payload.json }

/-- Client.ExecuteOrder issues its POST through makeAuthenticatedRequest. -/
def executeOrderHTTPRequest (c : Client) (now : Nat) (payload : ReqPayload) :
    BuiltRequest :=
  makeAuthenticatedRequest c now "POST" "/v5/order/create" payload

/-- Client.TerminateOrder issues its POST through makeAuthenticatedRequest. -/
def terminateOrderHTTPRequest (c : Client) (now : Nat) (payload : ReqPayload) :
    BuiltRequest :=
  makeAuthenticatedRequest c now "POST" "/v5/order/cancel" payload

/-- The query parameters Client.FetchOrderInfo sets. -/
def fetchOrderInfoParams (symbol orderID : String) (now : Nat) :
    List (String × String) :=
  [("symbol", symbol), ("orderId", orderID), ("timestamp", toString now)]

/-- Client.FetchOrderInfo builds its GET by hand: the signature is computed
over the bare encoded query string (no timestamp or API-key material) and is
both sent as the sign header and appended as a query parameter; no
receive-window header is set. -/
def fetchOrderInfoRequest (c : Client) (now : Nat) (symbol orderID : String) :
    BuiltRequest :=
  let qs := urlValuesEncode (fetchOrderInfoParams symbol orderID now)
  let signature := createSignature c qs
  { method := "GET"
    url := getBaseURL c ++ "/v5/order/realtime?" ++ qs
    urlSignatureParam := some signature
    headerApiKey := c.apiKey
    headerSign := signature
    headerTimestamp := toString now
    headerRecvWindow := none
    headerContentType := none
    body := none }

/- Helper lemmas shared by the claim theorems. -/

/-- 8-digit rounding moves a value by at most half of the last digit. -/
theorem round8_close (q : ℚ) : |round8 q - q| ≤ 1 / 200000000 := by
  have h : |(round (q * 100000000) : ℚ) - q * 100000000| ≤ 1 / 2 := by
    rw [abs_sub_comm]
    exact abs_sub_round (q * 100000000)
  have e : round8 q - q =
      ((round (q * 100000000) : ℚ) - q * 100000000) / 100000000 := by
    unfold round8
    ring
  rw [e, abs_div, abs_of_pos (by norm_num : (0 : ℚ) < 100000000)]
  linarith

/-- A value that is an integer multiple of the 8th-digit unit is fixed by
8-digit rounding. -/
theorem round8_eq_self (q : ℚ) (z : ℤ) (h : q * 100000000 = z) : round8 q = q := by
  have hq : q = (z : ℚ) / 100000000 := by
    rw [eq_div_iff (by norm_num : (100000000 : ℚ) ≠ 0)]
    exact h
  unfold round8
  rw [h, round_intCast, ← hq]

/-- Evaluation rule for 8-digit rounding at a concrete value: `z` is the
integer nearest to `q` in units of the 8th digit. -/
theorem round8_eval (q : ℚ) (z : ℤ) (h1 : (z : ℚ) ≤ q * 100000000 + 1 / 2)
    (h2 : q * 100000000 + 1 / 2 < z + 1) : round8 q = (z : ℚ) / 100000000 := by
  unfold round8
  rw [round_eq, Int.floor_eq_iff.mpr ⟨h1, h2⟩]

/-- Inserting a key into an association list makes it the lookup result. -/
theorem lookupTrade_insert (m : List (Nat × Trade)) (k : Nat) (t : Trade) :
    lookupTrade (insertTrade m k t) k = some t := by
  unfold lookupTrade insertTrade
  rw [List.find?_cons_of_pos _ (by simp)]
  rfl

/-- The running factor applied to the DCA grid price at absolute rung `i`. -/
def dcaStepFactor (cfg : TradeConfig) (i : Nat) : ℚ :=
  if cfg.dynamicStep then 1 - cfg.dcaStepPercent * ((i : ℚ) + 1) / 100
  else 1 - cfg.dcaStepPercent / 100

/-- The product of `n` consecutive grid factors starting at rung `st`. -/
def dcaFactorProd (cfg : TradeConfig) : Nat → Nat → ℚ
  | _, 0 => 1
  | st, Nat.succ n => dcaStepFactor cfg st * dcaFactorProd cfg (st + 1) n

/-- Unfolding one iteration of the DCA grid loop on the request side. -/
theorem dcaLoop_succ_fst (env : OrderEnv) (cfg : TradeConfig) (st n : Nat)
    (cp : ℚ) (vol : NumStr) :
    (dcaLoop env cfg st (n + 1) cp vol).1 =
      ({ symbol := cfg.symbol, side := OrderSideBuy, type := OrderTypeLimit,
         quantity := if 0 < cfg.martingale then fmt8 (parseOr0 vol * cfg.martingale) else vol,
         price := fmt8 (if cfg.dynamicStep then
             cp * (1 - cfg.dcaStepPercent * ((st : ℚ) + 1) / 100)
           else cp * (1 - cfg.dcaStepPercent / 100)) } : CreateOrderRequest) ::
      (dcaLoop env cfg (st + 1) n
        (if cfg.dynamicStep then cp * (1 - cfg.dcaStepPercent * ((st : ℚ) + 1) / 100)
         else cp * (1 - cfg.dcaStepPercent / 100))
        (if 0 < cfg.martingale then fmt8 (parseOr0 vol * cfg.martingale) else vol)).1 := by
  simp only [dcaLoop]

/-- The request price at position `i` of a DCA grid loop started at rung
`st` with running price `cp`. -/
theorem dcaLoop_req_price (env : OrderEnv) (cfg : TradeConfig) :
    ∀ (n i st : Nat) (cp : ℚ) (vol : NumStr), i < n →
      ((dcaLoop env cfg st n cp vol).1[i]?).map (fun r => r.price) =
        some (fmt8 (cp * dcaFactorProd cfg st (i + 1))) := by
  intro n
  induction n with
  | zero => intro i st cp vol h; omega
  | succ n ih =>
    intro i st cp vol h
    have hstep : (if cfg.dynamicStep then
          cp * (1 - cfg.dcaStepPercent * ((st : ℚ) + 1) / 100)
        else cp * (1 - cfg.dcaStepPercent / 100)) = cp * dcaStepFactor cfg st := by
      unfold dcaStepFactor
      cases cfg.dynamicStep <;> simp
    cases i with
    | zero =>
      rw [dcaLoop_succ_fst]
      simp only [List.getElem?_cons_zero, Option.map_some']
      rw [hstep]
      have h1 : dcaFactorProd cfg st (0 + 1) = dcaStepFactor cfg st * 1 := rfl
      rw [h1, mul_one]
    | succ i =>
      have hi : i < n := by omega
      rw [dcaLoop_succ_fst]
      simp only [List.getElem?_cons_succ]
      rw [hstep]
      rw [ih i (st + 1) _ _ hi]
      have : cp * dcaStepFactor cfg st * dcaFactorProd cfg (st + 1) (i + 1) =
          cp * dcaFactorProd cfg st (i + 2) := by
        conv_rhs => rw [show dcaFactorProd cfg st (i + 2) =
          dcaStepFactor cfg st * dcaFactorProd cfg (st + 1) (i + 1) from rfl]
        ring
      rw [this]

/-- With a constant step the factor product is a power. -/
theorem dcaFactorProd_const (cfg : TradeConfig) (h : cfg.dynamicStep = false) :
    ∀ n st, dcaFactorProd cfg st n = (1 - cfg.dcaStepPercent / 100) ^ n := by
  intro n
  induction n with
  | zero => intro st; rfl
  | succ n ih =>
    intro st
    unfold dcaFactorProd dcaStepFactor
    rw [h, ih (st + 1)]
    simp [pow_succ]
    ring

/-- With the dynamic step the factor product is the product of the scaled
per-rung factors. -/
theorem dcaFactorProd_dyn (cfg : TradeConfig) (h : cfg.dynamicStep = true) :
    ∀ n st, dcaFactorProd cfg st n =
      ((List.range n).map
        (fun k => 1 - cfg.dcaStepPercent * (((st + k : Nat) : ℚ) + 1) / 100)).prod := by
  intro n
  induction n with
  | zero => intro st; rfl
  | succ n ih =>
    intro st
    unfold dcaFactorProd dcaStepFactor
    rw [h, ih (st + 1)]
    simp only [List.range_succ_eq_map, List.map_cons, List.map_map, List.prod_cons]
    have : ((List.range n).map
        (fun k => 1 - cfg.dcaStepPercent * (((st + 1 + k : Nat) : ℚ) + 1) / 100)) =
        ((List.range n).map
          ((fun k => 1 - cfg.dcaStepPercent * (((st + k : Nat) : ℚ) + 1) / 100) ∘ Nat.succ)) := by
      apply List.map_congr_left
      intro a _
      have h' : st + 1 + a = st + (a + 1) := by omega
      simp [Function.comp, Nat.succ_eq_add_one, h']
    rw [this]
    simp

/-- The projected-volume loop in exact form: when every step value is an
integer multiple of the 8th-digit unit, the per-iteration re-rounding is
the identity and the loop computes the closed-form sum. -/
theorem tpVolLoop_exact (cfg : TradeConfig) (d : ℚ) (zdm : ℤ)
    (hd : cfg.dcaVolume = some d)
    (hzdm : d * cfg.martingale * 100000000 = zdm) :
    ∀ (n : Nat) (e : ℚ) (ze : ℤ), e * 100000000 = ze →
      tpVolLoop cfg n (some e) = some (e + n * (d * cfg.martingale)) := by
  intro n
  induction n with
  | zero => intro e ze he; simp [tpVolLoop]
  | succ n ih =>
    intro e ze he
    have hstep : tpVolStep cfg (some e) = some (e + d * cfg.martingale) := by
      unfold tpVolStep fmt8 parseOr0
      rw [hd]
      simp only [Option.getD_some]
      rw [round8_eq_self (e + d * cfg.martingale) (ze + zdm) (by push_cast [← he, ← hzdm]; ring)]
    unfold tpVolLoop
    rw [hstep, ih (e + d * cfg.martingale) (ze + zdm)
      (by push_cast [← he, ← hzdm]; ring)]
    congr 1
    push_cast
    ring

/-- The fold inside calculateNewAveragePrice accumulates the per-order
contributions. -/
theorem avgFold (l : List Order) : ∀ a : ℚ × ℚ,
    l.foldl (fun (a : ℚ × ℚ) o => (a.1 + dcaContribVol o, a.2 + dcaContribCost o)) a =
      (a.1 + (l.map dcaContribVol).sum, a.2 + (l.map dcaContribCost).sum) := by
  induction l with
  | nil => intro a; simp
  | cons o t ih =>
    intro a
    simp only [List.foldl_cons, List.map_cons, List.sum_cons, ih, Prod.mk.injEq]
    constructor <;> ring

/-- A FILLED order with an unparseable executed quantity or price
contributes no volume. -/
theorem dcaContribVol_malformed (b : Order)
    (h : b.executedQty = none ∨ b.price = none) : dcaContribVol b = 0 := by
  unfold dcaContribVol
  rcases h with h | h <;>
    (cases hq : b.executedQty <;> cases hp : b.price <;> simp_all)

/-- A FILLED order with an unparseable executed quantity or price
contributes no cost. -/
theorem dcaContribCost_malformed (b : Order)
    (h : b.executedQty = none ∨ b.price = none) : dcaContribCost b = 0 := by
  unfold dcaContribCost
  rcases h with h | h <;>
    (cases hq : b.executedQty <;> cases hp : b.price <;> simp_all)

/-- Characterization of calculateNewAveragePrice once the entry fields
parse: an error exactly when the accumulated volume is zero, otherwise the
cost-over-volume quotient and the formatted volume. -/
theorem calculateNewAveragePrice_eq (trade : Trade) (entry : Order) (ev ep : ℚ)
    (h1 : trade.entryOrder = some entry) (h2 : entry.quantity = some ev)
    (h3 : entry.price = some ep) :
    calculateNewAveragePrice trade =
      (if ev + (trade.dcaOrders.map dcaContribVol).sum = 0 then
        .error "total volume is zero"
      else
        .ok ((ev * ep + (trade.dcaOrders.map dcaContribCost).sum) /
              (ev + (trade.dcaOrders.map dcaContribVol).sum),
             fmt8 (ev + (trade.dcaOrders.map dcaContribVol).sum))) := by
  unfold calculateNewAveragePrice
  simp only [h1, h2, h3, avgFold]

/-- The spec-side total executed volume over exactly the FILLED DCA
orders. -/
def filledVolume (l : List Order) : ℚ :=
  ((l.filter (fun o => o.status == OrderStatusFilled)).map
    (fun o => parseOr0 o.executedQty)).sum

/-- The spec-side total cost over exactly the FILLED DCA orders. -/
def filledCost (l : List Order) : ℚ :=
  ((l.filter (fun o => o.status == OrderStatusFilled)).map
    (fun o => parseOr0 o.executedQty * parseOr0 o.price)).sum

/-- The volume contribution of a FILLED order whose fields parse. -/
theorem dcaContribVol_filled (o : Order) (v p : ℚ)
    (hs : o.status = OrderStatusFilled) (hv : o.executedQty = some v)
    (hp : o.price = some p) : dcaContribVol o = v := by
  unfold dcaContribVol
  rw [hv, hp]
  simp [hs]

/-- The cost contribution of a FILLED order whose fields parse. -/
theorem dcaContribCost_filled (o : Order) (v p : ℚ)
    (hs : o.status = OrderStatusFilled) (hv : o.executedQty = some v)
    (hp : o.price = some p) : dcaContribCost o = v * p := by
  unfold dcaContribCost
  rw [hv, hp]
  simp [hs]

/-- An order that is not FILLED contributes no volume. -/
theorem dcaContribVol_notFilled (o : Order)
    (hs : ¬ o.status = OrderStatusFilled) : dcaContribVol o = 0 := by
  unfold dcaContribVol
  simp [hs]

/-- An order that is not FILLED contributes no cost. -/
theorem dcaContribCost_notFilled (o : Order)
    (hs : ¬ o.status = OrderStatusFilled) : dcaContribCost o = 0 := by
  unfold dcaContribCost
  simp [hs]

/-- Unfolding the spec-side sums over a FILLED head order. -/
theorem filledSums_cons_filled (o : Order) (t : List Order)
    (hs : o.status = OrderStatusFilled) :
    filledVolume (o :: t) = parseOr0 o.executedQty + filledVolume t ∧
    filledCost (o :: t) = parseOr0 o.executedQty * parseOr0 o.price + filledCost t := by
  unfold filledVolume filledCost
  simp [List.filter_cons, hs]

/-- Unfolding the spec-side sums over a non-FILLED head order. -/
theorem filledSums_cons_notFilled (o : Order) (t : List Order)
    (hs : ¬ o.status = OrderStatusFilled) :
    filledVolume (o :: t) = filledVolume t ∧ filledCost (o :: t) = filledCost t := by
  unfold filledVolume filledCost
  simp [List.filter_cons, hs]

/-- When every FILLED order parses, the code's skip-on-parse-failure sums
agree with the spec-side sums over the FILLED orders. -/
theorem contrib_eq_filled (l : List Order)
    (hp : ∀ o ∈ l, o.status = OrderStatusFilled →
      o.executedQty ≠ none ∧ o.price ≠ none) :
    (l.map dcaContribVol).sum = filledVolume l ∧
    (l.map dcaContribCost).sum = filledCost l := by
  induction l with
  | nil => simp [filledVolume, filledCost]
  | cons o t ih =>
    have ht := ih (fun x hx => hp x (List.mem_cons_of_mem o hx))
    have ho := hp o (List.mem_cons_self o t)
    simp only [List.map_cons, List.sum_cons]
    by_cases hs : o.status = OrderStatusFilled
    · obtain ⟨hq, hpr⟩ := ho hs
      obtain ⟨v, hv⟩ := Option.ne_none_iff_exists'.mp hq
      obtain ⟨p, hpp⟩ := Option.ne_none_iff_exists'.mp hpr
      rw [dcaContribVol_filled o v p hs hv hpp, dcaContribCost_filled o v p hs hv hpp,
        (filledSums_cons_filled o t hs).1, (filledSums_cons_filled o t hs).2,
        ht.1, ht.2]
      unfold parseOr0
      rw [hv, hpp]
      simp
    · rw [dcaContribVol_notFilled o hs, dcaContribCost_notFilled o hs,
        (filledSums_cons_notFilled o t hs).1, (filledSums_cons_notFilled o t hs).2,
        ht.1, ht.2]
      simp

/- Claim theorems. -/

/-- C8 counterexample: composing the TP computation (price 100, 2 percent)
with the DCA computation returns 99.96, which deviates from the original
price by 0.04 — far more than 8-digit rounding.  The round trip multiplies
by (1 + c)(1 - c) = 1 - c^2, not by 1. -/
theorem c8_round_trip_counterexample :
    ComputeTakeProfitPrice (some 100) 2 OrderSideBuy = .ok (some 102) ∧
    ComputeDCAPrice (some 102) 2 OrderSideBuy = .ok (some (2499 / 25)) ∧
    ¬ |(2499 / 25 : ℚ) - 100| ≤ 1 / 100000000 := by
  have e1 : round8 ((102 : ℚ)) = 102 := by
    rw [round8_eval 102 10200000000 (by norm_num) (by norm_num)]
    norm_num
  have e2 : round8 ((2499 / 25 : ℚ)) = 2499 / 25 := by
    rw [round8_eval (2499 / 25) 9996000000 (by norm_num) (by norm_num)]
    norm_num
  refine ⟨?_, ?_, ?_⟩
  · norm_num [ComputeTakeProfitPrice, fmt8, e1]
  · norm_num [ComputeDCAPrice, fmt8, e2]
  · have hd : (2499 / 25 : ℚ) - 100 = -(1 / 25) := by norm_num
    rw [hd, abs_neg, abs_of_nonneg (by norm_num : (0 : ℚ) ≤ 1 / 25)]
    norm_num

/-- C8 (amended): for BUY, composing tp then dca yields
p * (1 - (pct/100)^2) up to 8-digit rounding — i.e. the round trip deviates
from p by about p*(pct/100)^2, not by at most rounding. -/
theorem c8_round_trip_amended (p pct : ℚ) (h1 : 0 < pct) (h2 : pct ≤ 100) :
    ComputeTakeProfitPrice (some p) pct OrderSideBuy =
      .ok (some (round8 (p * (1 + pct / 100)))) ∧
    ComputeDCAPrice (some (round8 (p * (1 + pct / 100)))) pct OrderSideBuy =
      .ok (some (round8 (round8 (p * (1 + pct / 100)) * (1 - pct / 100)))) ∧
    |round8 (round8 (p * (1 + pct / 100)) * (1 - pct / 100)) -
      p * (1 - (pct / 100) ^ 2)| ≤ 1 / 100000000 := by
  refine ⟨?_, ?_, ?_⟩
  · simp [ComputeTakeProfitPrice, fmt8, not_le.mpr h1]
  · simp [ComputeDCAPrice, fmt8, not_le.mpr h1]
  · have hA := round8_close (p * (1 + pct / 100))
    have hB := round8_close (round8 (p * (1 + pct / 100)) * (1 - pct / 100))
    have habs : |(1 : ℚ) - pct / 100| ≤ 1 := by
      rw [abs_of_nonneg (by linarith)]
      linarith
    have key : round8 (round8 (p * (1 + pct / 100)) * (1 - pct / 100)) -
        p * (1 - (pct / 100) ^ 2) =
        (round8 (round8 (p * (1 + pct / 100)) * (1 - pct / 100)) -
          round8 (p * (1 + pct / 100)) * (1 - pct / 100)) +
        (round8 (p * (1 + pct / 100)) - p * (1 + pct / 100)) * (1 - pct / 100) := by
      ring
    rw [key]
    refine le_trans (abs_add _ _) ?_
    rw [abs_mul]
    have hmul := mul_le_mul hA habs (abs_nonneg _)
      (by norm_num : (0 : ℚ) ≤ 1 / 200000000)
    linarith

/-- C8 witness: the amended round-trip law at price 100 and 2 percent. -/
theorem c8_round_trip_amended_witness :
    ComputeTakeProfitPrice (some 100) 2 OrderSideBuy = .ok (some 102) ∧
    ComputeDCAPrice (some 102) 2 OrderSideBuy = .ok (some (2499 / 25)) ∧
    |(2499 / 25 : ℚ) - 100 * (1 - (2 / 100) ^ 2)| ≤ 1 / 100000000 := by
  have h := c8_round_trip_amended 100 2 (by norm_num) (by norm_num)
  have e1 : round8 ((100 : ℚ) * (1 + 2 / 100)) = 102 := by
    rw [show (100 : ℚ) * (1 + 2 / 100) = 102 by norm_num,
      round8_eval 102 10200000000 (by norm_num) (by norm_num)]
    norm_num
  have e2 : round8 ((102 : ℚ) * (1 - 2 / 100)) = 2499 / 25 := by
    rw [show (102 : ℚ) * (1 - 2 / 100) = 2499 / 25 by norm_num,
      round8_eval (2499 / 25) 9996000000 (by norm_num) (by norm_num)]
    norm_num
  rw [e1, e2] at h
  exact h

/-- An environment whose exchange rejects everything; the DCA request list
does not depend on the exchange outcome. -/
def envNull : OrderEnv :=
  { market := fun _ => .error "unavailable"
    limit := fun _ => .error "unavailable"
    terminate := fun _ _ => .error "unavailable"
    fetch := fun _ _ => .error "unavailable" }

/-- The scenario config with the dynamic step switched on: entry 100, step
1 percent, 2 rungs. -/
def cfgC4 : TradeConfig :=
  { symbol := "SOLUSDT", entryVolume := some 100, dcaStepPercent := 1,
    dcaVolume := some 50, dcaCount := 2, takeProfitPercent := 2,
    martingale := 1, dynamicStep := true }

/-- C4 counterexample: with dynamic step, entry 100 and step 1, the grid
requests prices 99 then 97.02.  The second price differs from the claimed
plain offset from the entry price under either indexing (98 for the 1-based
reading, 99 for the 0-based one): the code compounds the scaled step on the
running price. -/
theorem c4_dca_grid_counterexample :
    ((dcaLoop envNull cfgC4 0 2 100 (some 50)).1.map (fun r => r.price)) =
      [some 99, some (4851 / 50)] ∧
    (4851 / 50 : ℚ) ≠ round8 (100 * (1 - 1 * 1 / 100)) ∧
    (4851 / 50 : ℚ) ≠ round8 (100 * (1 - 2 * 1 / 100)) := by
  have e99 : round8 ((99 : ℚ)) = 99 := by
    rw [round8_eval 99 9900000000 (by norm_num) (by norm_num)]
    norm_num
  have e98 : round8 ((98 : ℚ)) = 98 := by
    rw [round8_eval 98 9800000000 (by norm_num) (by norm_num)]
    norm_num
  have e9702 : round8 ((4851 / 50 : ℚ)) = 4851 / 50 := by
    rw [round8_eval (4851 / 50) 9702000000 (by norm_num) (by norm_num)]
    norm_num
  refine ⟨?_, ?_, ?_⟩
  · norm_num [dcaLoop, cfgC4, fmt8, e99, e9702]
  · rw [show (100 : ℚ) * (1 - 1 * 1 / 100) = 99 by norm_num, e99]
    norm_num
  · rw [show (100 : ℚ) * (1 - 2 * 1 / 100) = 98 by norm_num, e98]
    norm_num

/-- C4 (amended): the i-th requested grid price (0-based).  Without the
dynamic step it is the geometric ladder applied i+1 times to the entry
price.  With the dynamic step the running price is multiplied at iteration
k by (1 - (k+1)*step/100), so the i-th price compounds the scaled factors
and is not a plain offset from the entry price.  Formatting to 8 digits
happens per request; the running price stays unrounded. -/
theorem c4_dca_grid_amended (env : OrderEnv) (cfg : TradeConfig) (p : ℚ)
    (i : Nat) (h : i < cfg.dcaCount.toNat) :
    ((dcaLoop env cfg 0 cfg.dcaCount.toNat p cfg.dcaVolume).1[i]?).map
        (fun r => r.price) =
      some (fmt8 (p * (if cfg.dynamicStep then
          ((List.range (i + 1)).map
            (fun k : Nat => 1 - cfg.dcaStepPercent * ((k : ℚ) + 1) / 100)).prod
        else (1 - cfg.dcaStepPercent / 100) ^ (i + 1)))) := by
  rw [dcaLoop_req_price env cfg cfg.dcaCount.toNat i 0 p cfg.dcaVolume h]
  have hfac : dcaFactorProd cfg 0 (i + 1) = (if cfg.dynamicStep then
      ((List.range (i + 1)).map
        (fun k : Nat => 1 - cfg.dcaStepPercent * ((k : ℚ) + 1) / 100)).prod
    else (1 - cfg.dcaStepPercent / 100) ^ (i + 1)) := by
    cases hdyn : cfg.dynamicStep
    · rw [dcaFactorProd_const cfg hdyn]
      simp [hdyn]
    · rw [dcaFactorProd_dyn cfg hdyn]
      simp only [hdyn, if_true]
      congr 1
      apply List.map_congr_left
      intro a _
      norm_num
  rw [hfac]

/-- C4 witness: the amended grid law at the concrete dynamic-step config,
second rung. -/
theorem c4_dca_grid_witness :
    ((dcaLoop envNull cfgC4 0 cfgC4.dcaCount.toNat 100 cfgC4.dcaVolume).1[1]?).map
        (fun r => r.price) =
      some (fmt8 (100 * (if cfgC4.dynamicStep then
          ((List.range 2).map
            (fun k : Nat => 1 - cfgC4.dcaStepPercent * ((k : ℚ) + 1) / 100)).prod
        else (1 - cfgC4.dcaStepPercent / 100) ^ 2))) :=
  c4_dca_grid_amended envNull cfgC4 100 1 (by norm_num [cfgC4])

/-- A config exceeding the defined-but-unused MaxSafetyOrders bound. -/
def cfgC9 : TradeConfig :=
  { symbol := "SOLUSDT", entryVolume := some 100, dcaStepPercent := 1,
    dcaVolume := some 50, dcaCount := 21, takeProfitPercent := 2,
    martingale := 1, dynamicStep := false }

/-- C9 counterexample: a config with 21 DCA orders passes the handler's
validation unchanged even though MaxSafetyOrders is 20 — no upper bound is
enforced. -/
theorem c9_dca_count_counterexample :
    initializeTradeValidated cfgC9 = .ok cfgC9 ∧
    MaxSafetyOrders < cfgC9.dcaCount := by
  refine ⟨?_, by norm_num [MaxSafetyOrders, cfgC9]⟩
  norm_num [initializeTradeValidated, cfgC9]
  rintro (h | h | h) <;> simp_all

/-- C9 (amended): trade creation accepts exactly the configs with a
non-empty symbol, parseable volumes, and positive dcaCount, step and
take-profit percent.  Only the lower bound on dcaCount is checked; the
MaxSafetyOrders upper bound is never enforced.  The check runs before any
exchange interaction: the validator takes no exchange environment. -/
theorem c9_validation_amended (config : TradeConfig) :
    (∃ c, initializeTradeValidated config = .ok c) ↔
      (config.symbol ≠ "" ∧ config.entryVolume ≠ none ∧ config.dcaVolume ≠ none ∧
       0 < config.dcaCount ∧ 0 < config.dcaStepPercent ∧
       0 < config.takeProfitPercent) := by
  unfold initializeTradeValidated
  split_ifs with hreq hpos hm
  · constructor
    · rintro ⟨c, hc⟩
      simp at hc
    · intro hr
      rcases hreq with h | h | h <;> tauto
  · constructor
    · rintro ⟨c, hc⟩
      simp at hc
    · intro hr
      rcases hpos with h | h | h
      · exact absurd hr.2.2.2.1 (not_lt.mpr h)
      · exact absurd hr.2.2.2.2.1 (not_lt.mpr h)
      · exact absurd hr.2.2.2.2.2 (not_lt.mpr h)
  · simp only [not_or, not_le] at hreq hpos
    constructor
    · intro _
      exact ⟨hreq.1, hreq.2.1, hreq.2.2, hpos.1, hpos.2.1, hpos.2.2⟩
    · intro _
      exact ⟨_, rfl⟩
  · simp only [not_or, not_le] at hreq hpos
    constructor
    · intro _
      exact ⟨hreq.1, hreq.2.1, hreq.2.2, hpos.1, hpos.2.1, hpos.2.2⟩
    · intro _
      exact ⟨_, rfl⟩

/-- C5 (amended): calls that go through makeAuthenticatedRequest sign the
string timestamp, API key and payload (canonical query string for GET and
DELETE, raw JSON body otherwise); FetchOrderInfo builds its GET by hand and
signs only the bare canonical query string, with no timestamp or API-key
material. -/
theorem c5_signing_amended :
    (∀ (c : Client) (now : Nat) (method endpoint : String) (payload : ReqPayload),
      (makeAuthenticatedRequest c now method endpoint payload).headerSign =
        createSignature c (toString now ++ c.apiKey ++
          (if method = "GET" ∨ method = "DELETE" then urlValuesEncode payload.fields
           else payload.json))) ∧
    (∀ (c : Client) (now : Nat) (symbol orderID : String),
      (fetchOrderInfoRequest c now symbol orderID).headerSign =
        createSignature c (urlValuesEncode (fetchOrderInfoParams symbol orderID now))) :=
  ⟨fun _ _ _ _ _ => rfl, fun _ _ _ _ => rfl⟩

def clientC5 : Client :=
  { apiKey := "APIKEY", secretKey := "SECRETKEY", testnet := true }

/-- C5 counterexample: the sign header of the FetchOrderInfo GET covers the
bare query string; it cannot equal a signature over the claimed timestamp,
API key and payload string, whose message is strictly longer. -/
theorem c5_signing_counterexample :
    (fetchOrderInfoRequest clientC5 1700000000000 "SOLUSDT" "ORD1").headerSign =
      createSignature clientC5
        (urlValuesEncode (fetchOrderInfoParams "SOLUSDT" "ORD1" 1700000000000)) ∧
    (fetchOrderInfoRequest clientC5 1700000000000 "SOLUSDT" "ORD1").headerSign ≠
      createSignature clientC5 ((1700000000000 : Nat).repr ++ clientC5.apiKey ++
        urlValuesEncode (fetchOrderInfoParams "SOLUSDT" "ORD1" 1700000000000)) := by
  refine ⟨rfl, ?_⟩
  intro hcontra
  have hmsg : urlValuesEncode (fetchOrderInfoParams "SOLUSDT" "ORD1" 1700000000000) =
      (1700000000000 : Nat).repr ++ clientC5.apiKey ++
        urlValuesEncode (fetchOrderInfoParams "SOLUSDT" "ORD1" 1700000000000) :=
    congrArg Signature.message hcontra
  have hlen := congrArg String.length hmsg
  rw [String.length_append, String.length_append] at hlen
  have hk : clientC5.apiKey.length = 6 := rfl
  omega

/- Concrete fixtures: the spec's scenario-1 trade (entry 100 at price 100,
one indexed DCA rung at 99 for 50, initial TP at 102 for 250). -/

def cfgScenario : TradeConfig :=
  { symbol := "SOLUSDT", entryVolume := some 100, dcaStepPercent := 1,
    dcaVolume := some 50, dcaCount := 3, takeProfitPercent := 2,
    martingale := 1, dynamicStep := false }

def entryO : Order :=
  { id := 10, bybitID := "E1", symbol := "SOLUSDT", side := OrderSideBuy,
    type := OrderTypeMarket, quantity := some 100, price := some 100,
    status := OrderStatusFilled, executedQty := some 100,
    createdAt := 0, updatedAt := 0 }

def dcaO : Order :=
  { id := 12, bybitID := "D1", symbol := "SOLUSDT", side := OrderSideBuy,
    type := OrderTypeLimit, quantity := some 50, price := some 99,
    status := OrderStatusNew, executedQty := some 0,
    createdAt := 0, updatedAt := 0 }

/-- The exchange's authoritative view of the DCA order after its fill. -/
def dcaOFilled : Order :=
  { dcaO with id := 14, status := OrderStatusFilled, executedQty := some 50 }

def tpO1 : Order :=
  { id := 11, bybitID := "TP1", symbol := "SOLUSDT", side := OrderSideSell,
    type := OrderTypeLimit, quantity := some 250, price := some 102,
    status := OrderStatusNew, executedQty := some 0,
    createdAt := 0, updatedAt := 0 }

/-- The replacement take-profit order the exchange accepts during the
re-pricing after the DCA fill. -/
def tpO2 : Order :=
  { id := 13, bybitID := "TP2", symbol := "SOLUSDT", side := OrderSideSell,
    type := OrderTypeLimit, quantity := some 150, price := some (5083 / 50),
    status := OrderStatusNew, executedQty := some 0,
    createdAt := 0, updatedAt := 0 }

def tradeScenario : Trade :=
  { id := 1, symbol := "SOLUSDT", config := cfgScenario,
    entryOrder := some entryO, dcaOrders := [dcaO],
    takeProfitOrder := some tpO1, status := TradeStatusActive,
    totalInvested := some 100, averagePrice := some 100,
    currentPrice := some 100, createdAt := 0, updatedAt := 0 }

/-- An environment for the fill-processing scenario: the re-query reports
the DCA order FILLED for 50 at 99, and the replacement TP is accepted. -/
def envScenario : OrderEnv :=
  { market := fun _ => .error "unused"
    limit := fun _ => .ok tpO2
    terminate := fun _ _ => .ok ()
    fetch := fun _ _ => .ok dcaOFilled }

/-- C6 (amended): the initial TP request carries the price
entry * (1 + tp/100) to 8 digits and, whenever the per-rung increment and
the entry volume are integer multiples of the 8th-digit unit — so the
per-iteration re-rounding of the source's volume loop is exact — the
quantity dcaCount * (dcaVolume * martingale) above the entry volume. -/
theorem c6_initial_tp_amended (trade : Trade) (p e d : ℚ) (ze zdm : ℤ)
    (hm : 0 < trade.config.martingale)
    (he : trade.config.entryVolume = some e)
    (hd : trade.config.dcaVolume = some d)
    (hze : e * 100000000 = (ze : ℚ))
    (hzdm : d * trade.config.martingale * 100000000 = (zdm : ℚ)) :
    setupTPRequest trade p =
      { symbol := trade.config.symbol, side := OrderSideSell,
        type := OrderTypeLimit,
        quantity := some (e + (trade.config.dcaCount.toNat : ℚ) *
          (d * trade.config.martingale)),
        price := fmt8 (p * (1 + trade.config.takeProfitPercent / 100)) } := by
  unfold setupTPRequest
  have hq : tpTotalVolume trade.config =
      some (e + (trade.config.dcaCount.toNat : ℚ) * (d * trade.config.martingale)) := by
    unfold tpTotalVolume
    rw [if_pos hm, he]
    exact tpVolLoop_exact trade.config d zdm hd hzdm trade.config.dcaCount.toNat e ze hze
  rw [hq]

/-- A config whose per-rung volume increment is 4e-9 USDT — below half of
the 8th digit, so each re-rounded iteration is absorbed, while the claimed
closed form accumulates to a representable 8e-9. -/
def cfgC6 : TradeConfig :=
  { symbol := "SOLUSDT", entryVolume := some 100, dcaStepPercent := 1,
    dcaVolume := some 1, dcaCount := 2, takeProfitPercent := 2,
    martingale := 1 / 250000000, dynamicStep := false }

def tradeC6 : Trade := { tradeScenario with config := cfgC6 }

/-- C6 counterexample: with martingale 1/250000000 the TP request's
quantity stays at the entry volume (each increment is rounded away), while
the claimed closed form entry + count * (dca * m) formats to
100.00000001 — the iterated 8-digit re-rounding is observable. -/
theorem c6_initial_tp_counterexample :
    0 < cfgC6.martingale ∧
    (setupTPRequest tradeC6 100).quantity = some 100 ∧
    fmt8 (100 + (2 : ℚ) * (1 * cfgC6.martingale)) =
      some (10000000001 / 100000000) ∧
    (setupTPRequest tradeC6 100).quantity ≠
      fmt8 (100 + (2 : ℚ) * (1 * cfgC6.martingale)) := by
  have estep : round8 ((25000000001 / 250000000 : ℚ)) = 100 := by
    rw [round8_eval (25000000001 / 250000000) 10000000000 (by norm_num) (by norm_num)]
    norm_num
  have eclosed : round8 ((12500000001 / 125000000 : ℚ)) = 10000000001 / 100000000 := by
    rw [round8_eval (12500000001 / 125000000) 10000000001 (by norm_num) (by norm_num)]
    norm_num
  have hq : (setupTPRequest tradeC6 100).quantity = some 100 := by
    norm_num [setupTPRequest, tpTotalVolume, tradeC6, cfgC6, tpVolLoop, tpVolStep,
      fmt8, parseOr0, estep]
  have hf : fmt8 (100 + (2 : ℚ) * (1 * cfgC6.martingale)) =
      some (10000000001 / 100000000) := by
    norm_num [fmt8, cfgC6, eclosed]
  refine ⟨by norm_num [cfgC6], hq, hf, ?_⟩
  rw [hq, hf]
  simp only [ne_eq, Option.some.injEq]
  norm_num

/-- C6 witness: the amended law at the scenario-1 config and entry price
100 gives the TP request price 102 and quantity 250. -/
theorem c6_initial_tp_witness :
    setupTPRequest tradeScenario 100 =
      { symbol := "SOLUSDT", side := OrderSideSell, type := OrderTypeLimit,
        quantity := some 250, price := some 102 } := by
  have h := c6_initial_tp_amended tradeScenario 100 100 50 10000000000 5000000000
    (by norm_num [tradeScenario, cfgScenario]) rfl rfl
    (by norm_num) (by norm_num [tradeScenario, cfgScenario])
  have e102 : round8 ((102 : ℚ)) = 102 := by
    rw [round8_eval 102 10200000000 (by norm_num) (by norm_num)]
    norm_num
  rw [h]
  norm_num [tradeScenario, cfgScenario, fmt8, e102,
    show ((3 : ℤ).toNat) = 3 from rfl]

/-- C10: once the entry fields parse, calculateNewAveragePrice fails
exactly when the accumulated volume is zero, otherwise returns the
cost-over-volume quotient with the 8-digit-formatted volume; a FILLED DCA
order with an unparseable executed quantity or price is silently excluded
(inserting one anywhere changes nothing). -/
theorem c10_average_tolerates_malformed (trade : Trade) (entry : Order)
    (ev ep : ℚ) (h1 : trade.entryOrder = some entry)
    (h2 : entry.quantity = some ev) (h3 : entry.price = some ep) :
    (calculateNewAveragePrice trade =
      if ev + (trade.dcaOrders.map dcaContribVol).sum = 0 then
        .error "total volume is zero"
      else
        .ok ((ev * ep + (trade.dcaOrders.map dcaContribCost).sum) /
              (ev + (trade.dcaOrders.map dcaContribVol).sum),
             fmt8 (ev + (trade.dcaOrders.map dcaContribVol).sum))) ∧
    (∀ (l₁ l₂ : List Order) (b : Order), b.status = OrderStatusFilled →
      (b.executedQty = none ∨ b.price = none) →
      calculateNewAveragePrice { trade with dcaOrders := l₁ ++ b :: l₂ } =
        calculateNewAveragePrice { trade with dcaOrders := l₁ ++ l₂ }) := by
  refine ⟨calculateNewAveragePrice_eq trade entry ev ep h1 h2 h3, ?_⟩
  intro l₁ l₂ b hb hnone
  rw [calculateNewAveragePrice_eq { trade with dcaOrders := l₁ ++ b :: l₂ }
      entry ev ep h1 h2 h3,
    calculateNewAveragePrice_eq { trade with dcaOrders := l₁ ++ l₂ }
      entry ev ep h1 h2 h3]
  simp only [List.map_append, List.map_cons, List.sum_append, List.sum_cons,
    dcaContribVol_malformed b hnone, dcaContribCost_malformed b hnone, zero_add]

/-- A trade whose only exchange legs are the FILLED entry. -/
def tradeC10 : Trade := { tradeScenario with dcaOrders := [] }

/-- A FILLED DCA order whose executed quantity does not parse. -/
def badC10 : Order :=
  { dcaO with
      id := 15
      bybitID := "D9"
      status := OrderStatusFilled
      executedQty := none }

/-- C10 witness: on the scenario trade without DCA orders the average is
the entry price, and inserting a malformed FILLED order changes nothing. -/
theorem c10_average_tolerates_malformed_witness :
    calculateNewAveragePrice tradeC10 = .ok (100, some 100) ∧
    calculateNewAveragePrice { tradeC10 with dcaOrders := [badC10] } =
      calculateNewAveragePrice tradeC10 := by
  have h := c10_average_tolerates_malformed tradeC10 entryO 100 100 rfl rfl rfl
  have e100 : round8 ((100 : ℚ)) = 100 := by
    rw [round8_eval 100 10000000000 (by norm_num) (by norm_num)]
    norm_num
  constructor
  · rw [h.1]
    norm_num [tradeC10, fmt8, e100]
  · have h2 := h.2 [] [] badC10 rfl (Or.inl rfl)
    exact h2

/-- C7: when a DCA fill is processed and the replacement TP is accepted,
the trade's average price becomes the cost-weighted mean of the entry
(quantity, not executed quantity) and every FILLED DCA order, formatted to
8 digits, alongside the new TP and update time. -/
theorem c7_weighted_average (env : OrderEnv) (now : Nat) (trade : Trade)
    (i : Nat) (d u entry tpo : Order) (ev ep : ℚ)
    (hd : trade.dcaOrders[i]? = some d)
    (hf : env.fetch d.symbol d.bybitID = .ok u)
    (he : trade.entryOrder = some entry)
    (hq : entry.quantity = some ev)
    (hp : entry.price = some ep)
    (hparse : ∀ o ∈ trade.dcaOrders.set i u, o.status = OrderStatusFilled →
      o.executedQty ≠ none ∧ o.price ≠ none)
    (hvol : ev + filledVolume (trade.dcaOrders.set i u) ≠ 0)
    (hlimit : env.limit (updateTPRequest { trade with dcaOrders := trade.dcaOrders.set i u }
        ((ev * ep + filledCost (trade.dcaOrders.set i u)) /
          (ev + filledVolume (trade.dcaOrders.set i u)))
        (fmt8 (ev + filledVolume (trade.dcaOrders.set i u)))) = .ok tpo) :
    handleDCAExecution env now trade i =
      .ok { trade with
              dcaOrders := trade.dcaOrders.set i u
              takeProfitOrder := some tpo
              averagePrice := fmt8 ((ev * ep + filledCost (trade.dcaOrders.set i u)) /
                (ev + filledVolume (trade.dcaOrders.set i u)))
              updatedAt := now } := by
  have hcontrib := contrib_eq_filled (trade.dcaOrders.set i u) hparse
  have hcalc := calculateNewAveragePrice_eq
    { trade with dcaOrders := trade.dcaOrders.set i u } entry ev ep he hq hp
  dsimp only at hcalc
  rw [hcontrib.1, hcontrib.2, if_neg hvol] at hcalc
  unfold handleDCAExecution
  simp only [hd, hf]
  unfold updateTakeProfitOrder
  simp only [hcalc, hlimit]

/-- C7 witness: the scenario DCA fill (50 at 99 against entry 100 at 100)
drives the average price to (100*100 + 50*99)/150 = 99.66666667. -/
theorem c7_weighted_average_witness :
    ∃ t2, handleDCAExecution envScenario 7 tradeScenario 0 = .ok t2 ∧
      t2.averagePrice = some (9966666667 / 100000000) := by
  have havg : round8 ((100 * 100 + filledCost (tradeScenario.dcaOrders.set 0 dcaOFilled)) /
      (100 + filledVolume (tradeScenario.dcaOrders.set 0 dcaOFilled))) =
      9966666667 / 100000000 := by
    have hsum : ((100 : ℚ) * 100 + filledCost (tradeScenario.dcaOrders.set 0 dcaOFilled)) /
        (100 + filledVolume (tradeScenario.dcaOrders.set 0 dcaOFilled)) = 299 / 3 := by
      norm_num [filledCost, filledVolume, tradeScenario, dcaO, dcaOFilled,
        parseOr0, List.set]
    rw [hsum, round8_eval (299 / 3) 9966666667 (by norm_num) (by norm_num)]
    norm_num
  have h := c7_weighted_average envScenario 7 tradeScenario 0 dcaO dcaOFilled
    entryO tpO2 100 100 rfl rfl rfl rfl rfl
    (by
      intro o ho hs
      simp only [tradeScenario, List.set, List.mem_singleton] at ho
      subst ho
      exact ⟨by simp [dcaOFilled, dcaO], by simp [dcaOFilled, dcaO]⟩)
    (by norm_num [filledVolume, tradeScenario, dcaO, dcaOFilled, parseOr0, List.set])
    rfl
  refine ⟨_, h, ?_⟩
  show fmt8 ((100 * 100 + filledCost (tradeScenario.dcaOrders.set 0 dcaOFilled)) /
      (100 + filledVolume (tradeScenario.dcaOrders.set 0 dcaOFilled))) =
    some (9966666667 / 100000000)
  unfold fmt8
  rw [havg]

/-- C3 (amended): during TP re-pricing the cancellation outcome is dropped
(the result never depends on the terminate endpoint), and a failure to
place the replacement TP makes updateTakeProfitOrder fail — but
handleDCAExecution swallows that failure, so ProcessOrderExecution reports
success while the trade keeps its old TP and stale average price. -/
theorem c3_tp_failure_policy_amended :
    (∀ (env env' : OrderEnv) (trade : Trade), env.limit = env'.limit →
      updateTakeProfitOrder env trade = updateTakeProfitOrder env' trade) ∧
    (∀ (env : OrderEnv) (now : Nat) (st : TradeServiceState) (tradeID : Nat)
       (orderID msg : String) (trade : Trade) (i : Nat) (d u : Order),
      lookupTrade st.trades tradeID = some trade →
      trade.takeProfitOrder.map (fun o => o.bybitID) ≠ some orderID →
      trade.dcaOrders.findIdx? (fun o => o.bybitID == orderID) = some i →
      trade.dcaOrders[i]? = some d →
      env.fetch d.symbol d.bybitID = .ok u →
      (∀ req, env.limit req = .error msg) →
      (ProcessOrderExecution env now st tradeID orderID).2 = .ok () ∧
      (lookupTrade (ProcessOrderExecution env now st tradeID orderID).1.trades
          tradeID).map (fun t => (t.takeProfitOrder, t.averagePrice)) =
        some (trade.takeProfitOrder, trade.averagePrice)) := by
  constructor
  · intro env env' trade hlim
    simp only [updateTakeProfitOrder, hlim]
  · intro env now st tradeID orderID msg trade i d u hlook htp hidx hd hf hfail
    have hswallow :
        (match updateTakeProfitOrder env
            { trade with dcaOrders := trade.dcaOrders.set i u } with
          | .ok t => t
          | .error _ => { trade with dcaOrders := trade.dcaOrders.set i u }) =
        { trade with dcaOrders := trade.dcaOrders.set i u } := by
      unfold updateTakeProfitOrder
      cases hc : calculateNewAveragePrice
          { trade with dcaOrders := trade.dcaOrders.set i u } with
      | error e => simp [hc]
      | ok pair =>
        obtain ⟨a, v⟩ := pair
        simp [hc, hfail]
    have hrun : ProcessOrderExecution env now st tradeID orderID =
        ({ trades := insertTrade st.trades tradeID
             { trade with
                 dcaOrders := trade.dcaOrders.set i u
                 updatedAt := now }
           orderIndex := st.orderIndex }, .ok ()) := by
      unfold ProcessOrderExecution
      simp only [hlook]
      rw [if_neg htp]
      simp only [hidx]
      unfold handleDCAExecution
      simp only [hd, hf, hswallow]
    rw [hrun]
    refine ⟨rfl, ?_⟩
    rw [lookupTrade_insert]
    rfl

/-- An environment that rejects every order placement but serves the
re-query of the filled DCA order. -/
def envC3 : OrderEnv :=
  { market := fun _ => .error "exchange rejected"
    limit := fun _ => .error "exchange rejected"
    terminate := fun _ _ => .ok ()
    fetch := fun _ _ => .ok dcaOFilled }

/-- envC3 with a failing cancel endpoint. -/
def envC3b : OrderEnv :=
  { envC3 with
      terminate := fun _ _ => .error "cancel failed" }

def stC3 : TradeServiceState :=
  { trades := [(1, tradeScenario)],
    orderIndex := [("E1", 1), ("TP1", 1), ("D1", 1)] }

/-- C3 counterexample: the replacement-TP placement fails (the environment
rejects every placement), yet processing the DCA fill reports success —
the placement failure is not surfaced by ProcessOrderExecution. -/
theorem c3_tp_failure_policy_counterexample :
    envC3.limit (setupTPRequest tradeScenario 100) = .error "exchange rejected" ∧
    (ProcessOrderExecution envC3 7 stC3 1 "D1").2 = .ok () :=
  ⟨rfl, rfl⟩

/-- C3 witness: the amended policy at the scenario trade — cancel outcome
irrelevant, placement failure swallowed with TP and average unchanged. -/
theorem c3_tp_failure_policy_witness :
    updateTakeProfitOrder envC3 tradeScenario =
      updateTakeProfitOrder envC3b tradeScenario ∧
    (ProcessOrderExecution envC3 7 stC3 1 "D1").2 = .ok () ∧
    (lookupTrade (ProcessOrderExecution envC3 7 stC3 1 "D1").1.trades 1).map
        (fun t => (t.takeProfitOrder, t.averagePrice)) =
      some (some tpO1, some 100) := by
  have h1 := c3_tp_failure_policy_amended.1 envC3 envC3b tradeScenario rfl
  have h2 := c3_tp_failure_policy_amended.2 envC3 7 stC3 1 "D1" "exchange rejected"
    tradeScenario 0 dcaO dcaOFilled rfl (by decide) rfl rfl rfl (fun _ => rfl)
  exact ⟨h1, h2.1, by rw [h2.2]; rfl⟩

def stC1 : TradeServiceState :=
  { trades := [(1, tradeScenario)],
    orderIndex := [("E1", 1), ("TP1", 1), ("D1", 1)] }

/-- C1 (code bug): processing the DCA fill replaces the trade's TP with the
new exchange order TP2, but the reverse index is never updated: it still
maps the cancelled TP1 and has no entry for TP2, so the webhook lookup for
the live TP misses.  The spec requires the index to hold exactly the
trade's current orders. -/
theorem c1_reverse_index_stale :
    (lookupTrade (ProcessOrderExecution envScenario 7 stC1 1 "D1").1.trades 1).map
        (fun t => t.takeProfitOrder.map (fun o => o.bybitID)) =
      some (some "TP2") ∧
    indexLookup (ProcessOrderExecution envScenario 7 stC1 1 "D1").1.orderIndex
      "TP2" = none ∧
    indexLookup (ProcessOrderExecution envScenario 7 stC1 1 "D1").1.orderIndex
      "TP1" = some 1 ∧
    FindTradeByOrderID (ProcessOrderExecution envScenario 7 stC1 1 "D1").1 "TP2" =
      .error "trade not found for order ID" := by
  have hcalc := calculateNewAveragePrice_eq
    { tradeScenario with dcaOrders := tradeScenario.dcaOrders.set 0 dcaOFilled }
    entryO 100 100 rfl rfl rfl
  have hvol : ((tradeScenario.dcaOrders.set 0 dcaOFilled).map dcaContribVol).sum = 50 := by
    norm_num [tradeScenario, dcaO, dcaOFilled, dcaContribVol, List.set]
  have hcost : ((tradeScenario.dcaOrders.set 0 dcaOFilled).map dcaContribCost).sum = 4950 := by
    norm_num [tradeScenario, dcaO, dcaOFilled, dcaContribCost, List.set]
  dsimp only at hcalc
  rw [hvol, hcost, if_neg (by norm_num)] at hcalc
  have hupd : updateTakeProfitOrder envScenario
      { tradeScenario with dcaOrders := tradeScenario.dcaOrders.set 0 dcaOFilled } =
      .ok { tradeScenario with
              dcaOrders := tradeScenario.dcaOrders.set 0 dcaOFilled
              takeProfitOrder := some tpO2
              averagePrice := fmt8 ((100 * 100 + 4950) / (100 + 50)) } := by
    unfold updateTakeProfitOrder
    simp only [hcalc, envScenario]
  refine ⟨?_, rfl, rfl, rfl⟩
  unfold ProcessOrderExecution
  simp only [show lookupTrade stC1.trades 1 = some tradeScenario from rfl]
  rw [if_neg (by decide)]
  simp only [show tradeScenario.dcaOrders.findIdx?
    (fun o => o.bybitID == "D1") = some 0 from rfl]
  unfold handleDCAExecution
  simp only [show tradeScenario.dcaOrders[0]? = some dcaO from rfl,
    show envScenario.fetch dcaO.symbol dcaO.bybitID = .ok dcaOFilled from rfl]
  simp only [hupd]
  rw [lookupTrade_insert]
  rfl

/-- A trade already finalized as COMPLETED, still in the registry. -/
def tradeC2 : Trade :=
  { tradeScenario with status := TradeStatusCompleted, updatedAt := 5 }

def stC2 : TradeServiceState := { trades := [(1, tradeC2)], orderIndex := [] }

/-- C2 (code bug): neither CloseTrade nor ProcessOrderExecution checks for
a terminal status: closing a COMPLETED trade rewrites its status to
CANCELLED and bumps its update time, and processing a fill on it mutates
the trade as if it were live.  The spec requires both to be no-ops. -/
theorem c2_terminal_not_immutable :
    (CloseTrade envScenario 9 stC2 1 "manual close").2 = .ok () ∧
    (lookupTrade (CloseTrade envScenario 9 stC2 1 "manual close").1.trades 1).map
        (fun t => (t.status, t.updatedAt)) = some (TradeStatusCancelled, 9) ∧
    (ProcessOrderExecution envScenario 9 stC2 1 "D1").2 = .ok () ∧
    (lookupTrade (ProcessOrderExecution envScenario 9 stC2 1 "D1").1.trades 1).map
        (fun t => t.updatedAt) = some 9 :=
  ⟨rfl, rfl, rfl, rfl⟩

end CryptorgBot
